import Mathlib

/-!
Verification of the Translation Orchestration Engine of the
Multilingual-Translation-App repository (src/app.py), shallowly embedded
in Lean 4.  The external googletrans provider is modelled as a record of
possibly-failing functions; a raised provider exception is modelled as
`none`.  All engine logic (`perform_translation`, `swap_languages`, the
batch loop, the history ledger, the language catalog inversion) is
translated directly from src/app.py.
-/

namespace MTApp

/-- The external translation provider boundary (googletrans `Translator`):
`detect` and `translate` may fail; a raised exception is modelled as `none`.
`translate text src dest` returns the translated text on success. -/
structure Provider where
  detect : String → Option String
  translate : String → String → String → Option String

/-- A single call issued to the external provider, recorded for trace
reasoning about how many provider calls an operation makes. -/
inductive ProviderCall where
  | detect (text : String)
  | translate (text src dest : String)
deriving DecidableEq, Repr

/-- The Python guard `not text or not text.strip()` of src/app.py line 52:
it holds exactly when the text is empty or every character is whitespace
(an empty string also has an empty strip). -/
def isBlank (text : String) : Bool :=
  text.data.all Char.isWhitespace

/-- Embeds `perform_translation` of src/app.py (lines 50-64), additionally
returning the ordered list of provider calls issued.  The Python guard
`if not text or not text.strip(): return None, None` is `isBlank text`.
The try/except block catching any
provider exception and returning `(None, None)` is the propagation of
`none` from the provider calls.  When `src = "auto"` the detected language
becomes the effective source, and on success the pair
`(translation.text, src)` is returned with `src` the effective source. -/
def perform_translation_traced (P : Provider) (text src dest : String) :
    Option (String × String) × List ProviderCall :=
  if isBlank text then (none, [])
  else if src = "auto" then
    match P.detect text with
    | none => (none, [ProviderCall.detect text])
    | some s =>
      match P.translate text s dest with
      | none => (none, [ProviderCall.detect text, ProviderCall.translate text s dest])
      | some t => (some (t, s), [ProviderCall.detect text, ProviderCall.translate text s dest])
  else
    match P.translate text src dest with
    | none => (none, [ProviderCall.translate text src dest])
    | some t => (some (t, src), [ProviderCall.translate text src dest])

/-- The result component of `perform_translation`: `some (translatedText,
resolvedSourceCode)` on success, `none` on empty input or provider failure
(src/app.py lines 50-64). -/
def perform_translation (P : Provider) (text src dest : String) :
    Option (String × String) :=
  (perform_translation_traced P text src dest).1

/-- The effective source code used for the translate call: the detection
result when `src = "auto"`, otherwise `src` itself (src/app.py lines 56-58). -/
def effectiveSource (P : Provider) (text src : String) : Option String :=
  if src = "auto" then P.detect text else some src

/-- Embeds `swap_languages` of src/app.py (lines 66-75) as a pure function
on the (source, target) selection pair.  The new source is always the old
target; the new target is the old source only when the old source is not
the reserved label "Automatic Detection", otherwise the target keeps its
previous value. -/
def swap_languages (source target : String) : String × String :=
  let newSource := target
  let newTarget := if source ≠ "Automatic Detection" then source else target
  (newSource, newTarget)

/-- Modelled from the spec: the Language Catalog, "a fixed table of
language code ↔ display name pairs, loaded once at startup, read-only
thereafter".  In src/app.py this is `LANGUAGES` imported from the external
googletrans library (not part of src/); the table below is that library's
code→name dictionary as an ordered association list. -/
def LANGUAGES : List (String × String) :=
  [("af", "afrikaans"), ("sq", "albanian"), ("am", "amharic"),
   ("ar", "arabic"), ("hy", "armenian"), ("az", "azerbaijani"),
   ("eu", "basque"), ("be", "belarusian"), ("bn", "bengali"),
   ("bs", "bosnian"), ("bg", "bulgarian"), ("ca", "catalan"),
   ("ceb", "cebuano"), ("ny", "chichewa"), ("zh-cn", "chinese (simplified)"),
   ("zh-tw", "chinese (traditional)"), ("co", "corsican"), ("hr", "croatian"),
   ("cs", "czech"), ("da", "danish"), ("nl", "dutch"), ("en", "english"),
   ("eo", "esperanto"), ("et", "estonian"), ("tl", "filipino"),
   ("fi", "finnish"), ("fr", "french"), ("fy", "frisian"),
   ("gl", "galician"), ("ka", "georgian"), ("de", "german"),
   ("el", "greek"), ("gu", "gujarati"), ("ht", "haitian creole"),
   ("ha", "hausa"), ("haw", "hawaiian"), ("iw", "hebrew"), ("he", "hebrew"),
   ("hi", "hindi"), ("hmn", "hmong"), ("hu", "hungarian"),
   ("is", "icelandic"), ("ig", "igbo"), ("id", "indonesian"),
   ("ga", "irish"), ("it", "italian"), ("ja", "japanese"),
   ("jw", "javanese"), ("kn", "kannada"), ("kk", "kazakh"),
   ("km", "khmer"), ("ko", "korean"), ("ku", "kurdish (kurmanji)"),
   ("ky", "kyrgyz"), ("lo", "lao"), ("la", "latin"), ("lv", "latvian"),
   ("lt", "lithuanian"), ("lb", "luxembourgish"), ("mk", "macedonian"),
   ("mg", "malagasy"), ("ms", "malay"), ("ml", "malayalam"),
   ("mt", "maltese"), ("mi", "maori"), ("mr", "marathi"),
   ("mn", "mongolian"), ("my", "myanmar (burmese)"), ("ne", "nepali"),
   ("no", "norwegian"), ("or", "odia"), ("ps", "pashto"), ("fa", "persian"),
   ("pl", "polish"), ("pt", "portuguese"), ("pa", "punjabi"),
   ("ro", "romanian"), ("ru", "russian"), ("sm", "samoan"),
   ("gd", "scots gaelic"), ("sr", "serbian"), ("st", "sesotho"),
   ("sn", "shona"), ("sd", "sindhi"), ("si", "sinhala"), ("sk", "slovak"),
   ("sl", "slovenian"), ("so", "somali"), ("es", "spanish"),
   ("su", "sundanese"), ("sw", "swahili"), ("sv", "swedish"),
   ("tg", "tajik"), ("ta", "tamil"), ("te", "telugu"), ("th", "thai"),
   ("tr", "turkish"), ("uk", "ukrainian"), ("ur", "urdu"),
   ("ug", "uyghur"), ("uz", "uzbek"), ("vi", "vietnamese"),
   ("cy", "welsh"), ("xh", "xhosa"), ("yi", "yiddish"), ("yo", "yoruba"),
   ("zu", "zulu")]

/-- Embeds the `lang_codes` dictionary construction of src/app.py lines
104-105: the inversion `{name: code for code, name in LANGUAGES.items()}`
followed by the assignment `lang_codes["Automatic Detection"] = "auto"`,
kept as an ordered association list (later writes override earlier ones). -/
def lang_codes : List (String × String) :=
  (LANGUAGES.map fun p => (p.2, p.1)) ++ [("Automatic Detection", "auto")]

/-- Python dict lookup on an association list built by successive writes:
the value of the last pair carrying the key; `none` models the `KeyError`
raised when the key is absent. -/
def dictLookup (assoc : List (String × String)) (key : String) : Option String :=
  (assoc.reverse.find? fun p => p.1 == key).map Prod.snd

/-- The name→code resolution `lang_codes[name]` of src/app.py lines
127-128: `some code` on success, `none` models the `KeyError` for an
unknown display name. -/
def codeForName (name : String) : Option String :=
  dictLookup lang_codes name

/-- One entry of the session history ledger
(the dict appended at src/app.py lines 145-151). -/
structure HistoryEntry where
  original : String
  translated : String
  source : String
  target : String
  timestamp : String
deriving DecidableEq, Repr

/-- Embeds `st.session_state.history.append(...)` (src/app.py line 145):
Python `list.append` adds the entry at the end of the log. -/
def historyAppend (h : List HistoryEntry) (e : HistoryEntry) : List HistoryEntry :=
  h ++ [e]

/-- Embeds the newest-first history view
`pd.DataFrame(st.session_state.history).iloc[::-1]` (src/app.py line 158):
the log in reverse insertion order, the underlying log untouched. -/
def listNewestFirst (h : List HistoryEntry) : List HistoryEntry :=
  h.reverse

/-- Embeds `st.session_state.history = []` of the Clear History button
(src/app.py line 161). -/
def clearHistory : List HistoryEntry :=
  []

/-- Embeds the interactive Translate button body (src/app.py lines
126-151) restricted to its effect on the history log: the result of
`perform_translation` is appended as a history entry only when
`translated_text` is truthy (not `None` and not the empty string). -/
def interactive_translate (P : Provider) (history : List HistoryEntry)
    (input_text src_code dest_code source_name target_name ts : String) :
    List HistoryEntry :=
  match perform_translation P input_text src_code dest_code with
  | some (t, _) =>
    if t = "" then history
    else historyAppend history ⟨input_text, t, source_name, target_name, ts⟩
  | none => history

/-- Python `translated or "Error"` (src/app.py line 189): the translated
text when it is truthy (present and non-empty), the marker "Error" when
the resolver returned `None` or an empty string. -/
def pyOrError (t : Option String) : String :=
  match t with
  | some s => if s = "" then "Error" else s
  | none => "Error"

/-- One progress report issued by the batch driver:
`progress_bar.progress((i + 1) / len(df), text = ...)`
(src/app.py line 190).  The fraction is modelled exactly in ℚ. -/
structure ProgressEvent where
  value : ℚ
  label : String
deriving DecidableEq, Repr

/-- The progress label f-string "Translating row {i+1}/{len(df)}"
of src/app.py line 190, for 1-indexed row `row` of `n`. -/
def progressLabel (row n : Nat) : String :=
  "Translating row " ++ toString row ++ "/" ++ toString n

/-- Embeds the batch loop body (src/app.py lines 184-190): for each cell,
call `perform_translation` with source "auto", append
`translated or "Error"`, and report progress `(i+1)/n` with its label.
`i` is the 0-based index of the current row and `n` the total row count. -/
def runBatchAux (P : Provider) (dest : String) (n : Nat) :
    List String → Nat → List String × List ProgressEvent
  | [], _ => ([], [])
  | text :: rest, i =>
    let translated := Option.map Prod.fst (perform_translation P text "auto" dest)
    let tail := runBatchAux P dest n rest (i + 1)
    (pyOrError translated :: tail.1,
     ⟨((i + 1 : Nat) : ℚ) / (n : ℚ), progressLabel (i + 1) n⟩ :: tail.2)

/-- The batch translation driver (src/app.py lines 182-192): iterates the
selected column's cells in order, producing the `translations` list and
the sequence of progress reports. -/
def runBatch (P : Provider) (cells : List String) (dest : String) :
    List String × List ProgressEvent :=
  runBatchAux P dest cells.length cells 0

/-- A concrete provider that detects "en" and echoes its input, for
evaluating the engine on concrete requests. -/
def echoProvider : Provider :=
  ⟨fun _ => some "en", fun t _ _ => some t⟩

/-- A concrete provider whose every call raises, for evaluating the
failure paths. -/
def failingProvider : Provider :=
  ⟨fun _ => none, fun _ _ _ => none⟩

/-- A concrete provider whose translate succeeds but returns the empty
string, for evaluating the empty-translation handling. -/
def emptyTranslationProvider : Provider :=
  ⟨fun _ => some "en", fun _ _ _ => some ""⟩

/-- C3: swap sets the new source to the old target unconditionally, sets
the new target to the old source only when the old source is not the
reserved label (spelled "Automatic Detection" in src/app.py), keeps the
target unchanged otherwise, and in particular swapping from automatic
detection with target "french" yields ("french", "french"). -/
theorem swap_policy (source target : String) :
    (swap_languages source target).1 = target ∧
    (source ≠ "Automatic Detection" → (swap_languages source target).2 = source) ∧
    (source = "Automatic Detection" → (swap_languages source target).2 = target) ∧
    swap_languages "Automatic Detection" "french" = ("french", "french") := by
  refine ⟨rfl, fun h => ?_, fun h => ?_, by decide⟩
  · simp [swap_languages, h]
  · simp [swap_languages, h]

/-- Witness for swap_policy at concrete selections. -/
theorem swap_policy_witness :
    "english" ≠ "Automatic Detection" ∧
    (swap_languages "english" "french").2 = "english" ∧
    (swap_languages "Automatic Detection" "french").2 = "french" :=
  ⟨by decide, (swap_policy "english" "french").2.1 (by decide),
   (swap_policy "Automatic Detection" "french").2.2.1 rfl⟩

/-- C4: on empty or whitespace-only text the resolver returns none
immediately and the provider-call trace is empty, for every source and
target code. -/
theorem resolve_blank_no_calls (P : Provider) (text src dest : String)
    (h : isBlank text = true) :
    perform_translation_traced P text src dest = (none, []) := by
  simp [perform_translation_traced, h]

/-- Witness for resolve_blank_no_calls on a whitespace-only text. -/
theorem resolve_blank_no_calls_witness :
    isBlank "  " = true ∧
    perform_translation_traced echoProvider "  " "auto" "es" = (none, []) :=
  ⟨by decide, resolve_blank_no_calls echoProvider "  " "auto" "es" (by decide)⟩

/-- C5: when the detect call fails, or the translate call on the
effective source fails, the resolver returns none; being a total Lean
function it propagates no fault. -/
theorem resolve_catches_provider_failure (P : Provider) (text src dest : String) :
    (src = "auto" → P.detect text = none →
      perform_translation P text src dest = none) ∧
    (∀ s, effectiveSource P text src = some s → P.translate text s dest = none →
      perform_translation P text src dest = none) := by
  constructor
  · intro hsrc hdet
    by_cases hb : isBlank text
    · simp [perform_translation, perform_translation_traced, hb]
    · simp [perform_translation, perform_translation_traced, hb, hsrc, hdet]
  · intro s hs htr
    by_cases hb : isBlank text
    · simp [perform_translation, perform_translation_traced, hb]
    · by_cases hsrc : src = "auto"
      · simp only [effectiveSource, hsrc, if_true] at hs
        simp [perform_translation, perform_translation_traced, hb, hsrc, hs, htr]
      · simp only [effectiveSource, hsrc, if_false, if_neg hsrc,
          Option.some.injEq] at hs
        subst hs
        simp [perform_translation, perform_translation_traced, hb, hsrc, htr]

/-- Witness for resolve_catches_provider_failure on a provider whose
calls all raise. -/
theorem resolve_catches_provider_failure_witness :
    failingProvider.detect "hello" = none ∧
    perform_translation failingProvider "hello" "auto" "es" = none :=
  ⟨rfl, (resolve_catches_provider_failure failingProvider "hello" "auto" "es").1 rfl rfl⟩

/-- C9: with an identity-echo provider, resolving a non-blank text with
equal source and target code (a real code, not the sentinel) returns the
text itself with that code as the resolved source. -/
theorem resolve_identity_translation (P : Provider) (text code : String)
    (ht : isBlank text = false) (hc : code ≠ "auto")
    (hecho : ∀ t s d, P.translate t s d = some t) :
    perform_translation P text code code = some (text, code) := by
  simp [perform_translation, perform_translation_traced, ht, hc, hecho]

/-- Witness for resolve_identity_translation on the echo provider. -/
theorem resolve_identity_translation_witness :
    isBlank "bonjour" = false ∧ "fr" ≠ "auto" ∧
    perform_translation echoProvider "bonjour" "fr" "fr" = some ("bonjour", "fr") :=
  ⟨by decide, by decide,
   resolve_identity_translation echoProvider "bonjour" "fr" (by decide) (by decide)
     (fun _ _ _ => rfl)⟩

/-- C7: append places the entry at the end of the log, listing shows the
log in reverse insertion order (three appended entries come back newest
first) without losing the underlying order, and a cleared ledger lists as
the empty sequence. -/
theorem history_ledger_ops (h : List HistoryEntry) (e1 e2 e3 : HistoryEntry) :
    (historyAppend h e1).getLast? = some e1 ∧
    listNewestFirst (historyAppend (historyAppend (historyAppend h e1) e2) e3)
      = e3 :: e2 :: e1 :: listNewestFirst h ∧
    (listNewestFirst h).reverse = h ∧
    listNewestFirst clearHistory = [] := by
  refine ⟨?_, ?_, ?_, rfl⟩
  · simp [historyAppend]
  · simp [historyAppend, listNewestFirst]
  · simp [listNewestFirst]

/-- C2: on non-blank text with source "auto", a successful detection
yields a translation with the detected code as effective source and as
resolved source in the result, and a failed detection makes the whole
resolution return none. -/
theorem resolve_auto_detect_then_translate (P : Provider) (text dest : String)
    (ht : isBlank text = false) :
    (∀ d tr, P.detect text = some d → P.translate text d dest = some tr →
      perform_translation P text "auto" dest = some (tr, d)) ∧
    (P.detect text = none → perform_translation P text "auto" dest = none) := by
  constructor
  · intro d tr hd htr
    simp [perform_translation, perform_translation_traced, ht, hd, htr]
  · intro hd
    simp [perform_translation, perform_translation_traced, ht, hd]

/-- Witness for resolve_auto_detect_then_translate on the echo provider. -/
theorem resolve_auto_detect_then_translate_witness :
    isBlank "hola" = false ∧
    echoProvider.detect "hola" = some "en" ∧
    echoProvider.translate "hola" "en" "es" = some "hola" ∧
    perform_translation echoProvider "hola" "auto" "es" = some ("hola", "en") :=
  ⟨by decide, rfl, rfl,
   (resolve_auto_detect_then_translate echoProvider "hola" "es" (by decide)).1
     "en" "hola" rfl rfl⟩

/-- The outcomes list of the batch loop is the per-cell map of
`translated or "Error"` over the resolver called with source "auto". -/
theorem runBatchAux_fst (P : Provider) (dest : String) (n : Nat) :
    ∀ (l : List String) (i : Nat),
      (runBatchAux P dest n l i).1 =
        l.map fun c =>
          pyOrError (Option.map Prod.fst (perform_translation P c "auto" dest)) := by
  intro l
  induction l with
  | nil => intro i; rfl
  | cons c rest ih =>
    intro i
    simp [runBatchAux, ih (i + 1)]

/-- The progress reports of the batch loop starting at 0-based row `i`
are the fractions `(i + k + 1) / n` with their labels, for `k` ranging
over the remaining rows. -/
theorem runBatchAux_snd (P : Provider) (dest : String) (n : Nat) :
    ∀ (l : List String) (i : Nat),
      (runBatchAux P dest n l i).2 =
        (List.range l.length).map fun k =>
          ⟨((i + k + 1 : Nat) : ℚ) / (n : ℚ), progressLabel (i + k + 1) n⟩ := by
  intro l
  induction l with
  | nil => intro i; rfl
  | cons c rest ih =>
    intro i
    rw [List.length_cons, List.range_succ_eq_map]
    simp only [runBatchAux, ih (i + 1), List.map_cons, List.map_map]
    refine congrArg₂ List.cons ?_ (List.map_congr_left fun k _ => ?_)
    · have h0 : i + 0 + 1 = i + 1 := by omega
      rw [h0]
    · have hk : i + 1 + k + 1 = i + (k + 1) + 1 := by omega
      simp only [Function.comp_apply, Nat.succ_eq_add_one, hk]

/-- C1: the batch driver produces exactly one outcome per input row in
input order, each outcome being `translated or "Error"` for a Resolver
call on that row's cell with source "auto"; a row whose resolution
returns none gets the literal marker "Error" while every other row is
still processed (its outcome is given by the same per-index formula). -/
theorem batch_rows_in_order (P : Provider) (cells : List String) (dest : String) :
    (runBatch P cells dest).1.length = cells.length ∧
    (∀ i (hi : i < cells.length),
      (runBatch P cells dest).1[i]? =
        some (pyOrError (Option.map Prod.fst
          (perform_translation P (cells.get ⟨i, hi⟩) "auto" dest)))) ∧
    (∀ i (hi : i < cells.length),
      perform_translation P (cells.get ⟨i, hi⟩) "auto" dest = none →
        (runBatch P cells dest).1[i]? = some "Error") := by
  have hfst := runBatchAux_fst P dest cells.length cells 0
  refine ⟨?_, ?_, ?_⟩
  · simp [runBatch, hfst]
  · intro i hi
    simp [runBatch, hfst, List.getElem?_map, List.getElem?_eq_getElem hi]
  · intro i hi hnone
    rw [List.get_eq_getElem] at hnone
    simp [runBatch, hfst, List.getElem?_map, List.getElem?_eq_getElem hi, hnone, pyOrError]

/-- Witness for batch_rows_in_order: a failing provider makes every row
an "Error" while both rows are still present in order. -/
theorem batch_rows_in_order_witness :
    perform_translation failingProvider ((["hello", "world"] : List String).get
      ⟨1, by decide⟩) "auto" "es" = none ∧
    (runBatch failingProvider ["hello", "world"] "es").1[1]? = some "Error" :=
  ⟨by decide,
   (batch_rows_in_order failingProvider ["hello", "world"] "es").2.2 1 (by decide)
     (by decide)⟩

/-- C6: after row i (1-indexed) of n the driver reports the fraction
i / n with the "row i of n" label, the reported fractions are
monotonically non-decreasing, and the report after the final row is
exactly 1. -/
theorem batch_progress_reports (P : Provider) (cells : List String) (dest : String) :
    (runBatch P cells dest).2.length = cells.length ∧
    (∀ i (hi : i < cells.length),
      (runBatch P cells dest).2[i]? =
        some ⟨((i + 1 : Nat) : ℚ) / (cells.length : ℚ),
              progressLabel (i + 1) cells.length⟩) ∧
    (∀ (i j : Nat) (ei ej : ProgressEvent), i ≤ j →
      (runBatch P cells dest).2[i]? = some ei →
      (runBatch P cells dest).2[j]? = some ej →
      ei.value ≤ ej.value) ∧
    (0 < cells.length →
      ((runBatch P cells dest).2.getLast?).map ProgressEvent.value = some 1) := by
  have hsnd := runBatchAux_snd P dest cells.length cells 0
  have hlen : (runBatch P cells dest).2.length = cells.length := by
    simp [runBatch, hsnd]
  have hidx : ∀ i, i < cells.length →
      (runBatch P cells dest).2[i]? =
        some ⟨((i + 1 : Nat) : ℚ) / (cells.length : ℚ),
              progressLabel (i + 1) cells.length⟩ := by
    intro i hi
    have hi2 : i < (List.range cells.length).length := by simpa using hi
    simp only [runBatch, hsnd, List.getElem?_map, List.getElem?_eq_getElem hi2]
    simp
  refine ⟨hlen, fun i hi => hidx i hi, ?_, ?_⟩
  · intro i j ei ej hij hei hej
    have hj : j < cells.length := by
      obtain ⟨hh, -⟩ := List.getElem?_eq_some.mp hej
      rw [hlen] at hh
      exact hh
    have hi : i < cells.length := lt_of_le_of_lt hij hj
    rw [hidx i hi] at hei
    rw [hidx j hj] at hej
    obtain rfl : ei = _ := (Option.some.injEq _ _ ▸ hei.symm)
    obtain rfl : ej = _ := (Option.some.injEq _ _ ▸ hej.symm)
    have hnum : ((i + 1 : Nat) : ℚ) ≤ ((j + 1 : Nat) : ℚ) := by
      exact_mod_cast Nat.succ_le_succ hij
    exact div_le_div_of_nonneg_right hnum (by positivity)
  · intro hpos
    rw [List.getLast?_eq_getElem? , hlen, hidx (cells.length - 1) (by omega)]
    have h1 : cells.length - 1 + 1 = cells.length := by omega
    rw [h1]
    simp [div_self, show ((cells.length : ℚ)) ≠ 0 by exact_mod_cast hpos.ne']

/-- Witness for batch_progress_reports on a two-row batch: the report
after the second (final) row is the fraction 2/2 with its label, and the
last reported value is exactly 1. -/
theorem batch_progress_reports_witness :
    1 < (["a", "b"] : List String).length ∧
    (runBatch echoProvider ["a", "b"] "es").2[1]? =
      some ⟨(((1 : Nat) + 1 : Nat) : ℚ) / (((["a", "b"] : List String).length : Nat) : ℚ),
            progressLabel (1 + 1) (["a", "b"] : List String).length⟩ ∧
    ((runBatch echoProvider ["a", "b"] "es").2.getLast?).map ProgressEvent.value = some 1 :=
  ⟨by decide,
   (batch_progress_reports echoProvider ["a", "b"] "es").2.1 1 (by decide),
   (batch_progress_reports echoProvider ["a", "b"] "es").2.2.2 (by decide)⟩

/-- The marker expression `translated or "Error"` never yields the empty
string: the translated text is kept only when non-empty and the fallback
is the non-empty literal "Error". -/
theorem pyOrError_ne_empty (t : Option String) : pyOrError t ≠ "" := by
  match t with
  | none => exact by decide
  | some s =>
    by_cases hs : s = ""
    · simp [pyOrError, hs]
    · simp [pyOrError, hs]

/-- C10: an empty translated string is treated as a failure by both
callers — every batch outcome is a non-empty string (the marker "Error"
replaces empty translations), an interactive resolution that returns an
empty translated text leaves the history unchanged, and the interactive
flow preserves the invariant that no history entry holds an empty
translated string. -/
theorem empty_translation_is_failure :
    (∀ (P : Provider) (cells : List String) (dest out : String),
      out ∈ (runBatch P cells dest).1 → out ≠ "") ∧
    (∀ (P : Provider) (h : List HistoryEntry)
        (input src dest sn tn ts s : String),
      perform_translation P input src dest = some ("", s) →
      interactive_translate P h input src dest sn tn ts = h) ∧
    (∀ (P : Provider) (h : List HistoryEntry) (input src dest sn tn ts : String),
      (∀ e ∈ h, e.translated ≠ "") →
      ∀ e ∈ interactive_translate P h input src dest sn tn ts, e.translated ≠ "") := by
  refine ⟨?_, ?_, ?_⟩
  · intro P cells dest out hmem
    rw [runBatch, runBatchAux_fst P dest cells.length cells 0] at hmem
    obtain ⟨c, -, rfl⟩ := List.mem_map.mp hmem
    exact pyOrError_ne_empty _
  · intro P h input src dest sn tn ts s heq
    simp [interactive_translate, heq]
  · intro P h input src dest sn tn ts hinv e hmem
    unfold interactive_translate at hmem
    cases hpt : perform_translation P input src dest with
    | none =>
      rw [hpt] at hmem
      exact hinv e hmem
    | some p =>
      rw [hpt] at hmem
      by_cases hp : p.1 = ""
      · obtain ⟨t, s⟩ := p
        simp only at hp
        subst hp
        simp only [if_pos rfl] at hmem
        exact hinv e hmem
      · obtain ⟨t, s⟩ := p
        simp only at hp
        simp only [if_neg hp, historyAppend] at hmem
        rcases List.mem_append.mp hmem with hin | hnew
        · exact hinv e hin
        · rw [List.mem_singleton.mp hnew]
          exact hp

/-- Witness for empty_translation_is_failure: a provider returning the
empty translation leaves the interactive history empty, and the "Error"
outcome of a batch over it is non-empty. -/
theorem empty_translation_is_failure_witness :
    perform_translation emptyTranslationProvider "hi" "en" "fr" = some ("", "en") ∧
    interactive_translate emptyTranslationProvider [] "hi" "en" "fr"
      "english" "french" "t0" = [] ∧
    "Error" ≠ "" :=
  ⟨by decide,
   empty_translation_is_failure.2.1 emptyTranslationProvider [] "hi" "en" "fr"
     "english" "french" "t0" "en" (by decide),
   empty_translation_is_failure.1 emptyTranslationProvider ["hi"] "fr" "Error"
     (by decide)⟩

/-- Membership of a pair in the inverted catalog: each pair of
lang_codes is either a reversed catalog pair or the sentinel pair. -/
theorem mem_lang_codes (p : String × String) (hp : p ∈ lang_codes) :
    (∃ q ∈ LANGUAGES, p = (q.2, q.1)) ∨ p = ("Automatic Detection", "auto") := by
  rcases List.mem_append.mp hp with hmap | hone
  · obtain ⟨q, hq, rfl⟩ := List.mem_map.mp hmap
    exact Or.inl ⟨q, hq, rfl⟩
  · exact Or.inr (List.mem_singleton.mp hone)

/-- C8: the name→code dictionary resolves the reserved display name
"Automatic Detection" to the sentinel "auto", and fails (KeyError,
modelled as none) on every display name that is neither the reserved
label nor a name in the catalog. -/
theorem codeForName_auto_and_unknown :
    codeForName "Automatic Detection" = some "auto" ∧
    ∀ name, name ≠ "Automatic Detection" →
      (∀ p ∈ LANGUAGES, p.2 ≠ name) → codeForName name = none := by
  constructor
  · rfl
  · intro name hname habs
    unfold codeForName dictLookup
    have hfind : List.find? (fun p => p.1 == name) lang_codes.reverse = none := by
      rw [List.find?_eq_none]
      intro p hp
      rw [List.mem_reverse] at hp
      rcases mem_lang_codes p hp with ⟨q, hq, rfl⟩ | rfl
      · simpa using habs q hq
      · simpa using fun hh => hname hh.symm
    rw [hfind]
    rfl

/-- Witness for codeForName_auto_and_unknown: the absent name "klingon"
fails to resolve while the reserved label resolves to "auto". -/
theorem codeForName_auto_and_unknown_witness :
    codeForName "Automatic Detection" = some "auto" ∧
    codeForName "klingon" = none :=
  ⟨codeForName_auto_and_unknown.1,
   codeForName_auto_and_unknown.2 "klingon" (by decide) (by decide)⟩

end MTApp
